import Mathlib

/-!
Shallow embedding of the reconciliation matching engine of the
Smart Reconciliation & Audit System
(`src/backend/services/reconciliationService.js` and the backing models
`Record.js`, `ReconciliationResult.js`, `AuditLog.js`).

Amounts are modelled by rationals.  JavaScript division by zero yields
`NaN` or `±Infinity`, both of which fail every `≤` comparison the code
performs; wherever a denominator can be zero the embedding branches
explicitly so the comparisons agree with the source's behaviour.
-/

namespace Recon

/-- The record fields the engine compares
(`fieldsToCompare` in `findDifferences`, the rule field lists). -/
inductive Field where
  | transactionId
  | amount
  | referenceNumber
  | date
  | description
  deriving DecidableEq, Repr

/-- A JavaScript field value as the engine sees it: amounts are number
primitives, transaction identifier, reference number and description are
string primitives, and the date is a mongoose `Date` object (its carried
timestamp is recorded, but two `Date` objects of two distinct documents
are never the same object). -/
inductive Value where
  | str (s : String)
  | num (q : ℚ)
  | dateObj (t : String)
  deriving DecidableEq, Repr

/-- Model `Record.js`: restricted to the fields the engine reads. -/
structure Record where
  id : ℕ
  transactionId : String
  amount : ℚ
  referenceNumber : String
  date : String
  description : String
  uploadJobId : ℕ
  isSystemRecord : Bool
  deriving DecidableEq, Repr

/-- Field access `record[field]` for the compared fields; the `date`
field holds a `Date` object (`Record.js` declares `date: Date`). -/
def getField (f : Field) (r : Record) : Value :=
  match f with
  | .transactionId => .str r.transactionId
  | .amount => .num r.amount
  | .referenceNumber => .str r.referenceNumber
  | .date => .dateObj r.date
  | .description => .str r.description

/-- JavaScript strict equality `===` on the raw field values the service
compares: value equality for string and number primitives, and reference
equality for `Date` objects — the two records of a comparison are always
distinct mongoose documents, so their `Date` objects are distinct and
`===` is `false` regardless of the carried timestamp. -/
def jsStrictEq : Value → Value → Bool
  | .str a, .str b => decide (a = b)
  | .num a, .num b => decide (a = b)
  | _, _ => false

/-- The rule configuration (`this.reconciliationRules` in the service
constructor, snapshotted into every result). -/
structure Rules where
  exactMatchFields : List Field
  partialMatchFields : List Field
  tolerance : ℚ
  deriving DecidableEq, Repr

/-- Default configuration from the service constructor:
tolerance 0.02, exact fields transactionId and amount,
partial field referenceNumber. -/
def defaultRules : Rules :=
  { exactMatchFields := [.transactionId, .amount]
    partialMatchFields := [.referenceNumber]
    tolerance := 2/100 }

/-- The amount branch of the exact-match loop of `calculateMatchScore`
(lines 23–32): `variance = |a-b| / ((a+b)/2)`, contribution 1 when
`variance ≤ tolerance`, 0.5 when `variance ≤ 2·tolerance`, else 0.
When the average is zero the JavaScript quotient is `NaN` (diff 0) or
`+Infinity` (diff > 0) and both comparisons are false, so the
contribution is 0. -/
def amountScore (tol a b : ℚ) : ℚ :=
  if (a + b) / 2 = 0 then 0
  else if |a - b| / ((a + b) / 2) ≤ tol then 1
  else if |a - b| / ((a + b) / 2) ≤ tol * 2 then 1/2
  else 0

/-- One iteration of the exact-match loop of `calculateMatchScore`:
the `amount` field uses `amountScore`, every other field contributes 1
on strict equality. -/
def exactFieldScore (tol : ℚ) (u s : Record) (f : Field) : ℚ :=
  match f with
  | .amount => amountScore tol u.amount s.amount
  | _ => if jsStrictEq (getField f u) (getField f s) then 1 else 0

/-- One iteration of the partial-match loop of `calculateMatchScore`:
0.8 on strict equality, else 0. -/
def partialFieldScore (u s : Record) (f : Field) : ℚ :=
  if jsStrictEq (getField f u) (getField f s) then 4/5 else 0

/-- Source `calculateMatchScore(uploadedRecord, systemRecord)` (lines 16–47):
sum of the per-field contributions divided by the number of compared
fields, 0 when no field is compared. -/
def calculateMatchScore (rules : Rules) (u s : Record) : ℚ :=
  let score := (rules.exactMatchFields.map (exactFieldScore rules.tolerance u s)).sum
    + (rules.partialMatchFields.map (partialFieldScore u s)).sum
  let totalFields := rules.exactMatchFields.length + rules.partialMatchFields.length
  if 0 < totalFields then score / totalFields else 0

/-- The `matchStatus` enumeration of `ReconciliationResult.js`. -/
inductive MatchStatus where
  | matched
  | partially_matched
  | not_matched
  | duplicate
  deriving DecidableEq, Repr

/-- A field difference entry as produced by `findDifferences`. -/
structure FieldDifference where
  field : Field
  uploadedValue : Value
  systemValue : Value
  variance : Option ℚ
  deriving DecidableEq, Repr

/-- Source `determineMatchStatus(score, differences, duplicateCount)`
(lines 79–91).  The `differences` argument is accepted and ignored,
as in the source. -/
def determineMatchStatus (score : ℚ) (_differences : List FieldDifference)
    (duplicateCount : ℕ) : MatchStatus :=
  if duplicateCount > 1 then .duplicate
  else if score ≥ 95/100 then .matched
  else if score ≥ 6/10 then .partially_matched
  else .not_matched

/-- The field list of `findDifferences` (line 52). -/
def fieldsToCompare : List Field :=
  [.transactionId, .amount, .referenceNumber, .date, .description]

/-- The loop body of `findDifferences` (lines 54–73) for one field:
no entry when `uploadedValue !== systemValue` is false, otherwise one
difference entry; for the date field the comparison is between two
distinct `Date` objects and is always unequal.  The amount entry carries
`variance = |a-b| / max(a,b)` (both amounts are numbers in the model, so
the `typeof` guard always holds). -/
def diffEntry (u s : Record) (f : Field) : Option FieldDifference :=
  if jsStrictEq (getField f u) (getField f s) then none
  else some
    { field := f
      uploadedValue := getField f u
      systemValue := getField f s
      variance :=
        if f = .amount then
          some (|u.amount - s.amount| / max u.amount s.amount)
        else none }

/-- Source `findDifferences`, assembled over the compared-field list. -/
def findDifferences (u s : Record) : List FieldDifference :=
  fieldsToCompare.filterMap (diffEntry u s)

/-- Source `findSystemMatches(uploadedRecord)` (lines 94–121).  The record store
is modelled as the list `db`; `Record.find` with an equality/range filter
is `List.filter`.  Exact tier first (transactionId + amount + system
flag); the partial tier (referenceNumber + amount within
`amount × (1 ± tolerance)` + system flag) runs only when the exact tier
is empty. -/
def findSystemMatches (tol : ℚ) (db : List Record) (u : Record) : List Record :=
  let exactMatches := db.filter fun r =>
    r.transactionId = u.transactionId ∧ r.amount = u.amount ∧ r.isSystemRecord = true
  if exactMatches.isEmpty then
    let amountMin := u.amount * (1 - tol)
    let amountMax := u.amount * (1 + tol)
    db.filter fun r =>
      r.referenceNumber = u.referenceNumber ∧
        amountMin ≤ r.amount ∧ r.amount ≤ amountMax ∧ r.isSystemRecord = true
  else exactMatches

/-- Source `findDuplicates(uploadJobId)` (lines 124–138): group the uploaded
(non-system) records of the job by transaction identifier and keep the
groups of size > 1, each as (transactionId, count). -/
def findDuplicates (db : List Record) (uploadJobId : ℕ) : List (String × ℕ) :=
  let uploaded := db.filter fun r =>
    r.uploadJobId = uploadJobId ∧ r.isSystemRecord = false
  let txnIds := (uploaded.map Record.transactionId).dedup
  (txnIds.map fun t => (t, (uploaded.filter fun r => r.transactionId = t).length)
    ).filter fun p => p.2 > 1

/-- A serialized object stored in an audit entry's `oldValue`/`newValue`
(`Mixed` in `AuditLog.js`); only the keys the service actually writes are
modelled, each optional. -/
structure AuditValue where
  matchStatus : Option MatchStatus := none
  matchScore : Option ℚ := none
  systemRecordId : Option (Option ℕ) := none
  isManuallyResolved : Option Bool := none
  notes : Option (Option String) := none
  deriving DecidableEq, Repr

/-- An audit log entry (`AuditLog.js`), restricted to the fields the
service writes. -/
structure AuditEntry where
  entityType : String
  entityId : ℕ
  action : String
  userId : ℕ
  oldValue : Option AuditValue
  newValue : AuditValue
  source : String
  deriving DecidableEq, Repr

/-- A reconciliation result (`ReconciliationResult.js`). -/
structure ReconciliationResult where
  id : ℕ
  uploadedRecordId : ℕ
  systemRecordId : Option ℕ
  matchStatus : MatchStatus
  matchScore : ℚ
  differences : List FieldDifference
  uploadJobId : ℕ
  reconciliationRules : Rules
  isManuallyResolved : Bool
  resolvedBy : Option ℕ
  resolvedAt : Option ℕ
  notes : Option String
  deriving DecidableEq, Repr

/-- The persistent state the service reads and writes: the record store,
the reconciliation results, the append-only audit log, and a fresh-id
counter standing for MongoDB object-id generation. -/
structure DB where
  records : List Record
  results : List ReconciliationResult
  auditLog : List AuditEntry
  nextId : ℕ
  deriving DecidableEq, Repr

/-- The manual-resolution input (`resolution` in `resolveManually`):
`matchStatus` is required by the route, `systemRecordId` and `notes`
may be absent (`none` models a missing / `undefined` property). -/
structure Resolution where
  matchStatus : MatchStatus
  systemRecordId : Option ℕ
  notes : Option String
  deriving DecidableEq, Repr

/-- The best-match scan of the orchestrator loop (lines 168–178):
fold over the candidates keeping the strictly highest score,
starting from `bestMatch = null`, `bestScore = 0`. -/
def bestMatchScan (rules : Rules) (u : Record) (candidates : List Record) :
    Option Record × ℚ :=
  candidates.foldl
    (fun acc s =>
      let score := calculateMatchScore rules u s
      if score > acc.2 then (some s, score) else acc)
    (none, 0)

/-- The body of the per-record loop of `reconcileUploadJob`
(lines 160–213): compute duplicate count, candidates, best match,
differences and status, persist one `ReconciliationResult`, append
one `reconcile` audit entry, and push the result onto the list
accumulated for the summary. -/
def reconcileStep (rules : Rules) (duplicates : List (String × ℕ))
    (uploadJobId userId : ℕ) (acc : DB × List ReconciliationResult)
    (u : Record) : DB × List ReconciliationResult :=
  let st := acc.1
  let duplicateCount :=
    match duplicates.find? fun p => p.1 = u.transactionId with
    | some p => p.2
    | none => 1
  let systemMatches := findSystemMatches rules.tolerance st.records u
  let best := bestMatchScan rules u systemMatches
  let bestMatch := best.1
  let bestScore := best.2
  let differences :=
    match bestMatch with
    | some b => findDifferences u b
    | none => []
  let matchStatus := determineMatchStatus bestScore differences duplicateCount
  let result : ReconciliationResult :=
    { id := st.nextId
      uploadedRecordId := u.id
      systemRecordId := bestMatch.map Record.id
      matchStatus := matchStatus
      matchScore := bestScore
      differences := differences
      uploadJobId := uploadJobId
      reconciliationRules := rules
      isManuallyResolved := false
      resolvedBy := none
      resolvedAt := none
      notes := none }
  let entry : AuditEntry :=
    { entityType := "reconciliation_result"
      entityId := result.id
      action := "reconcile"
      userId := userId
      oldValue := none
      newValue :=
        { matchStatus := some matchStatus
          matchScore := some bestScore
          systemRecordId := some (bestMatch.map Record.id) }
      source := "system" }
  ({ st with
      results := st.results ++ [result]
      auditLog := st.auditLog ++ [entry]
      nextId := st.nextId + 1 },
    acc.2 ++ [result])

/-- The summary object returned by `reconcileUploadJob` (lines 215–224). -/
structure ReconcileSummary where
  totalRecords : ℕ
  matched : ℕ
  partiallyMatched : ℕ
  notMatched : ℕ
  duplicates : ℕ
  deriving DecidableEq, Repr

/-- Source `reconcileUploadJob(uploadJobId, userId)` (lines 141–230): load the
uploaded records of the job, fail when there are none, otherwise detect
duplicates once, process every record through the per-record loop and
return the per-status counts. -/
def reconcileUploadJob (rules : Rules) (db : DB) (uploadJobId userId : ℕ) :
    Except String (DB × ReconcileSummary) :=
  let uploadedRecords := db.records.filter fun r =>
    r.uploadJobId = uploadJobId ∧ r.isSystemRecord = false
  if uploadedRecords.isEmpty then
    .error "No uploaded records found for reconciliation"
  else
    let duplicates := findDuplicates db.records uploadJobId
    let final := uploadedRecords.foldl
      (reconcileStep rules duplicates uploadJobId userId) (db, [])
    let db' := final.1
    let newResults := final.2
    .ok (db',
      { totalRecords := uploadedRecords.length
        matched := (newResults.filter fun r => r.matchStatus = .matched).length
        partiallyMatched :=
          (newResults.filter fun r => r.matchStatus = .partially_matched).length
        notMatched :=
          (newResults.filter fun r => r.matchStatus = .not_matched).length
        duplicates :=
          (newResults.filter fun r => r.matchStatus = .duplicate).length })

/-- Source `resolveManually(reconciliationId, resolution, userId)`
(lines 233–275): fail when no result has the identifier; otherwise
capture `oldValue`, apply the resolution (status, override flag,
resolver, timestamp, notes, and the system record only when supplied),
persist, and append one `resolve` audit entry.  `now` stands for
`new Date()`. -/
def resolveManually (db : DB) (reconciliationId : ℕ) (resolution : Resolution)
    (userId now : ℕ) : Except String (DB × ReconciliationResult) :=
  match db.results.find? fun r => r.id = reconciliationId with
  | none => .error "Reconciliation result not found"
  | some r =>
    let oldValue : AuditValue :=
      { matchStatus := some r.matchStatus
        isManuallyResolved := some r.isManuallyResolved
        notes := some r.notes }
    let r' : ReconciliationResult :=
      { r with
          matchStatus := resolution.matchStatus
          isManuallyResolved := true
          resolvedBy := some userId
          resolvedAt := some now
          notes := resolution.notes
          systemRecordId :=
            match resolution.systemRecordId with
            | some sid => some sid
            | none => r.systemRecordId }
    let entry : AuditEntry :=
      { entityType := "reconciliation_result"
        entityId := r'.id
        action := "resolve"
        userId := userId
        oldValue := some oldValue
        newValue :=
          { matchStatus := some r'.matchStatus
            isManuallyResolved := some true
            notes := some r'.notes
            systemRecordId := some r'.systemRecordId }
        source := "web_ui" }
    .ok
      ({ db with
          results := db.results.map fun x => if x.id = reconciliationId then r' else x
          auditLog := db.auditLog ++ [entry] },
        r')

/-- The operations of the program that write to the persistent state.
Every other code path of the repository only reads the audit log
(the audit routes use `find`, `countDocuments` and `aggregate`;
`getReconciliationStats` aggregates results); upload-job processing
appends audit entries the same way `AuditLog.create` does here. -/
inductive Op where
  | reconcile (rules : Rules) (uploadJobId userId : ℕ)
  | resolve (reconciliationId : ℕ) (resolution : Resolution) (userId now : ℕ)
  deriving DecidableEq, Repr

/-- Run one operation against the persistent state; a failed operation
(surfaced to the caller as a thrown error) leaves the state unchanged. -/
def applyOp (db : DB) : Op → DB
  | .reconcile rules uploadJobId userId =>
    match reconcileUploadJob rules db uploadJobId userId with
    | .ok p => p.1
    | .error _ => db
  | .resolve reconciliationId resolution userId now =>
    match resolveManually db reconciliationId resolution userId now with
    | .ok p => p.1
    | .error _ => db

/-- Run a sequence of operations against the persistent state. -/
def runOps (db : DB) (ops : List Op) : DB :=
  ops.foldl applyOp db

/-! Concrete fixtures used to instantiate the theorems below. -/

/-- An uploaded record of upload job 7. -/
def sampleUploaded : Record :=
  { id := 1
    transactionId := "T1"
    amount := 100
    referenceNumber := "R1"
    date := "2024-01-01"
    description := "invoice"
    uploadJobId := 7
    isSystemRecord := false }

/-- A system record agreeing with `sampleUploaded` on every compared field. -/
def sampleSystem : Record :=
  { sampleUploaded with id := 2, uploadJobId := 0, isSystemRecord := true }

/-- The uploaded record with amount 0. -/
def zeroUploaded : Record :=
  { sampleUploaded with amount := 0 }

/-- The system record with amount 0. -/
def zeroSystem : Record :=
  { sampleSystem with amount := 0 }

/-- A persisted reconciliation result with identifier 5. -/
def sampleResult : ReconciliationResult :=
  { id := 5
    uploadedRecordId := 1
    systemRecordId := some 2
    matchStatus := .partially_matched
    matchScore := 14/15
    differences := []
    uploadJobId := 7
    reconciliationRules := defaultRules
    isManuallyResolved := false
    resolvedBy := none
    resolvedAt := none
    notes := some "auto" }

/-- A database holding one uploaded record, one system record and one
persisted result. -/
def sampleDB : DB :=
  { records := [sampleUploaded, sampleSystem]
    results := [sampleResult]
    auditLog := []
    nextId := 10 }

/-- A database whose record store holds only a system record, so upload
job 7 has no uploaded records. -/
def emptyJobDB : DB :=
  { records := [sampleSystem]
    results := []
    auditLog := []
    nextId := 0 }

/-- A manual-resolution input without a system-record id. -/
def sampleResolution : Resolution :=
  { matchStatus := .matched
    systemRecordId := none
    notes := some "checked" }

/-- The result `sampleResult` after `sampleResolution` is applied by
user 99 at time 1000. -/
def sampleResolvedResult : ReconciliationResult :=
  { sampleResult with
      matchStatus := .matched
      isManuallyResolved := true
      resolvedBy := some 99
      resolvedAt := some 1000
      notes := some "checked" }

/-- The audit entry written when `sampleResolution` is applied to
`sampleResult` by user 99. -/
def sampleResolveEntry : AuditEntry :=
  { entityType := "reconciliation_result"
    entityId := 5
    action := "resolve"
    userId := 99
    oldValue := some
      { matchStatus := some .partially_matched
        isManuallyResolved := some false
        notes := some (some "auto") }
    newValue :=
      { matchStatus := some .matched
        isManuallyResolved := some true
        notes := some (some "checked")
        systemRecordId := some (some 2) }
    source := "web_ui" }

/-- The database `sampleDB` after the manual resolution above. -/
def sampleResolvedDB : DB :=
  { sampleDB with
      results := [sampleResolvedResult]
      auditLog := [sampleResolveEntry] }

/-! Helper lemmas. -/

/-- The amount contribution is one of 0, 1/2, 1. -/
theorem amountScore_cases (tol a b : ℚ) :
    amountScore tol a b = 0 ∨ amountScore tol a b = 1/2 ∨ amountScore tol a b = 1 := by
  unfold amountScore
  split_ifs <;> simp

/-- The amount contribution never exceeds 1. -/
theorem amountScore_le_one (tol a b : ℚ) : amountScore tol a b ≤ 1 := by
  rcases amountScore_cases tol a b with h | h | h <;> rw [h] <;> norm_num

/-- Equal nonzero amounts contribute 1 whenever the tolerance is
nonnegative. -/
theorem amountScore_self (tol a : ℚ) (h0 : a ≠ 0) (htol : 0 ≤ tol) :
    amountScore tol a a = 1 := by
  unfold amountScore
  have havg : (a + a) / 2 = a := by ring
  rw [if_neg (by rw [havg]; exact h0)]
  have hvar : |a - a| / ((a + a) / 2) = 0 := by simp
  rw [if_pos (by rw [hvar]; exact htol)]

/-- Claim C2: the Classifier returns `duplicate` whenever the duplicate
count exceeds 1, regardless of the score; otherwise `matched` when the
score is at least 0.95; otherwise `partially_matched` when it is at
least 0.60; otherwise `not_matched` — in exactly that order. -/
theorem claim2_classifier_decision_order (s : ℚ) (d : List FieldDifference) (c : ℕ) :
    (c > 1 → determineMatchStatus s d c = .duplicate) ∧
    (¬ c > 1 → s ≥ 95/100 → determineMatchStatus s d c = .matched) ∧
    (¬ c > 1 → ¬ s ≥ 95/100 → s ≥ 6/10 →
      determineMatchStatus s d c = .partially_matched) ∧
    (¬ c > 1 → ¬ s ≥ 95/100 → ¬ s ≥ 6/10 →
      determineMatchStatus s d c = .not_matched) := by
  refine ⟨?_, ?_, ?_, ?_⟩ <;> intros <;> simp [determineMatchStatus, *]

/-- Witness for C2: a score of 1 with duplicate count 2 classifies as
`duplicate`. -/
theorem claim2_witness :
    (2 > 1) ∧ determineMatchStatus 1 [] 2 = .duplicate :=
  ⟨by norm_num, (claim2_classifier_decision_order 1 [] 2).1 (by norm_num)⟩

/-- Claim C3: for a nonnegative tolerance and amounts whose
average-based relative variance `v = |a-b| / ((a+b)/2)` is defined, the
amount contribution is exactly 1 when `v ≤ tolerance`, exactly 0.5 when
`tolerance < v ≤ 2·tolerance`, and exactly 0 when `v > 2·tolerance`. -/
theorem claim3_amount_contribution_cases (tol a b v : ℚ) (htol : 0 ≤ tol)
    (havg : (a + b) / 2 ≠ 0) (hv : v = |a - b| / ((a + b) / 2)) :
    (v ≤ tol → amountScore tol a b = 1) ∧
    (tol < v → v ≤ 2 * tol → amountScore tol a b = 1/2) ∧
    (2 * tol < v → amountScore tol a b = 0) := by
  subst hv
  unfold amountScore
  rw [if_neg havg]
  refine ⟨fun h => if_pos h, fun h1 h2 => ?_, fun h => ?_⟩
  · rw [if_neg (not_le.mpr h1), if_pos (by linarith)]
  · rw [if_neg (by push_neg; linarith), if_neg (by push_neg; linarith)]

/-- Witness for C3: amounts 100 and 103 under tolerance 0.02 have
variance 6/203, strictly between the tolerance and twice the tolerance,
and contribute exactly 0.5. -/
theorem claim3_witness :
    ((100:ℚ) + 103) / 2 ≠ 0 ∧
    (6:ℚ)/203 = |(100:ℚ) - 103| / (((100:ℚ) + 103) / 2) ∧
    amountScore (2/100) 100 103 = 1/2 :=
  ⟨by norm_num, by norm_num,
    (claim3_amount_contribution_cases (2/100) 100 103 (6/203)
        (by norm_num) (by norm_num) (by norm_num)).2.1
      (by norm_num) (by norm_num)⟩

/-- Claim C10: when both amounts are 0 the average-based denominator is 0
and the amount field contributes 0; two records agreeing on transaction
identifier and reference number but with amount 0 therefore score
(1 + 0 + 0.8)/3 = 0.6 under the default rules, not 2.8/3. -/
theorem claim10_zero_amount_score (u s : Record)
    (hT : u.transactionId = s.transactionId)
    (hR : u.referenceNumber = s.referenceNumber)
    (hA : u.amount = 0) (hA2 : s.amount = 0) :
    amountScore defaultRules.tolerance u.amount s.amount = 0 ∧
    calculateMatchScore defaultRules u s = 3/5 ∧
    (3:ℚ)/5 ≠ 28/30 := by
  have h0 : amountScore defaultRules.tolerance u.amount s.amount = 0 := by
    rw [hA, hA2]
    unfold amountScore
    rw [if_pos (by norm_num)]
  refine ⟨h0, ?_, by norm_num⟩
  have h0' : amountScore (2/100) u.amount s.amount = 0 := h0
  simp only [calculateMatchScore, defaultRules, List.map_cons, List.map_nil,
    List.sum_cons, List.sum_nil, exactFieldScore, partialFieldScore, getField,
    jsStrictEq, List.length_cons, List.length_nil, hT, hR, h0', decide_True,
    if_true, eq_self_iff_true]
  norm_num

/-- Witness for C10: the zero-amount fixtures agree on every compared
field yet score 0.6. -/
theorem claim10_witness :
    zeroUploaded.transactionId = zeroSystem.transactionId ∧
    zeroUploaded.referenceNumber = zeroSystem.referenceNumber ∧
    zeroUploaded.amount = 0 ∧ zeroSystem.amount = 0 ∧
    calculateMatchScore defaultRules zeroUploaded zeroSystem = 3/5 :=
  ⟨rfl, rfl, rfl, rfl,
    (claim10_zero_amount_score zeroUploaded zeroSystem rfl rfl rfl rfl).2.1⟩

/-- Under the default rules every score is at most (1 + 1 + 0.8)/3. -/
theorem calculateMatchScore_default_le (u s : Record) :
    calculateMatchScore defaultRules u s ≤ 28/30 := by
  have ht : (if jsStrictEq (Value.str u.transactionId) (Value.str s.transactionId)
      then (1:ℚ) else 0) ≤ 1 := by split_ifs <;> norm_num
  have ha := amountScore_le_one (2/100) u.amount s.amount
  have hr : (if jsStrictEq (Value.str u.referenceNumber) (Value.str s.referenceNumber)
      then (4:ℚ)/5 else 0) ≤ 4/5 := by split_ifs <;> norm_num
  simp only [calculateMatchScore, defaultRules, List.map_cons, List.map_nil,
    List.sum_cons, List.sum_nil, exactFieldScore, partialFieldScore, getField,
    List.length_cons, List.length_nil]
  rw [if_pos (by norm_num)]
  have hc : ((0 + 1 + 1 + (0 + 1) : ℕ) : ℚ) = 3 := by norm_num
  rw [hc, div_le_iff₀ (by norm_num : (0:ℚ) < 3)]
  linarith

/-- Claim C1: with the default configuration the Scorer never returns
more than (1 + 1 + 0.8)/3 = 28/30, which is below the 0.95 `matched`
threshold; records agreeing exactly on transaction identifier, amount
(nonzero) and reference number score exactly 28/30 and, with duplicate
count 1, classify as `partially_matched`, never `matched`. -/
theorem claim1_all_exact_default_partially_matched (u s : Record)
    (d : List FieldDifference)
    (hT : u.transactionId = s.transactionId) (hA : u.amount = s.amount)
    (hA0 : u.amount ≠ 0) (hR : u.referenceNumber = s.referenceNumber) :
    (∀ u' s' : Record, calculateMatchScore defaultRules u' s' ≤ 28/30) ∧
    (28:ℚ)/30 < 95/100 ∧
    calculateMatchScore defaultRules u s = 28/30 ∧
    determineMatchStatus (calculateMatchScore defaultRules u s) d 1 =
      .partially_matched := by
  have hAs : amountScore (2/100) u.amount s.amount = 1 := by
    rw [hA]
    exact amountScore_self (2/100) s.amount (hA ▸ hA0) (by norm_num)
  have hscore : calculateMatchScore defaultRules u s = 28/30 := by
    simp only [calculateMatchScore, defaultRules, List.map_cons, List.map_nil,
      List.sum_cons, List.sum_nil, exactFieldScore, partialFieldScore, getField,
      jsStrictEq, List.length_cons, List.length_nil, hT, hR, hAs, decide_True,
      if_true, eq_self_iff_true]
    norm_num
  refine ⟨fun u' s' => calculateMatchScore_default_le u' s', by norm_num, hscore, ?_⟩
  rw [hscore]
  simp only [determineMatchStatus]
  norm_num

/-- Witness for C1: the fixture records agree on every compared field
with amount 100 and classify as `partially_matched`. -/
theorem claim1_witness :
    sampleUploaded.transactionId = sampleSystem.transactionId ∧
    sampleUploaded.amount = sampleSystem.amount ∧
    sampleUploaded.amount ≠ 0 ∧
    sampleUploaded.referenceNumber = sampleSystem.referenceNumber ∧
    determineMatchStatus (calculateMatchScore defaultRules sampleUploaded sampleSystem)
      [] 1 = .partially_matched :=
  ⟨rfl, rfl, by norm_num [sampleUploaded], rfl,
    (claim1_all_exact_default_partially_matched sampleUploaded sampleSystem []
      rfl rfl (by norm_num [sampleUploaded]) rfl).2.2.2⟩

/-- Claim C4: the Matcher returns exactly the system records agreeing on
transaction identifier and amount; only when that set is empty does it
return exactly the system records agreeing on reference number with
amount within `amount × (1 ± tolerance)`; with no candidates in either
tier it returns the empty list. -/
theorem claim4_matcher_two_tiers (tol : ℚ) (db : List Record) (u : Record) :
    ((∃ x ∈ db, x.transactionId = u.transactionId ∧ x.amount = u.amount ∧
        x.isSystemRecord = true) →
      ∀ r, r ∈ findSystemMatches tol db u ↔
        r ∈ db ∧ r.transactionId = u.transactionId ∧ r.amount = u.amount ∧
          r.isSystemRecord = true) ∧
    ((¬ ∃ x ∈ db, x.transactionId = u.transactionId ∧ x.amount = u.amount ∧
        x.isSystemRecord = true) →
      ∀ r, r ∈ findSystemMatches tol db u ↔
        r ∈ db ∧ r.referenceNumber = u.referenceNumber ∧
          u.amount * (1 - tol) ≤ r.amount ∧ r.amount ≤ u.amount * (1 + tol) ∧
          r.isSystemRecord = true) := by
  constructor
  · intro hex r
    have hne : (db.filter fun x =>
        x.transactionId = u.transactionId ∧ x.amount = u.amount ∧
          x.isSystemRecord = true).isEmpty = false := by
      obtain ⟨x, hx, h1, h2, h3⟩ := hex
      rw [List.isEmpty_eq_false_iff_exists_mem]
      exact ⟨x, List.mem_filter.mpr ⟨hx, by simp [h1, h2, h3]⟩⟩
    simp only [findSystemMatches, hne, Bool.false_eq_true, if_false,
      List.mem_filter, decide_eq_true_eq]
  · intro hex r
    have hemp : (db.filter fun x =>
        x.transactionId = u.transactionId ∧ x.amount = u.amount ∧
          x.isSystemRecord = true).isEmpty = true := by
      rw [List.isEmpty_iff, List.filter_eq_nil_iff]
      intro x hx hcontra
      exact hex ⟨x, hx, by simpa using hcontra⟩
    simp only [findSystemMatches, hemp, if_true, List.mem_filter,
      decide_eq_true_eq]

/-- Witness for C4: the sample system record is the unique exact-tier
candidate for the sample uploaded record. -/
theorem claim4_witness :
    (∃ x ∈ [sampleUploaded, sampleSystem],
      x.transactionId = sampleUploaded.transactionId ∧
        x.amount = sampleUploaded.amount ∧ x.isSystemRecord = true) ∧
    (sampleSystem ∈ findSystemMatches (2/100) [sampleUploaded, sampleSystem]
        sampleUploaded ↔
      sampleSystem ∈ [sampleUploaded, sampleSystem] ∧
        sampleSystem.transactionId = sampleUploaded.transactionId ∧
        sampleSystem.amount = sampleUploaded.amount ∧
        sampleSystem.isSystemRecord = true) :=
  ⟨⟨sampleSystem, by simp, rfl, rfl, rfl⟩,
    (claim4_matcher_two_tiers (2/100) [sampleUploaded, sampleSystem]
        sampleUploaded).1
      ⟨sampleSystem, by simp, rfl, rfl, rfl⟩ sampleSystem⟩

/-- Claim C8: batch reconciliation fails with the no-records error
exactly when the batch has no uploaded (non-system) records, and in that
case leaves the persistent state unchanged — nothing is persisted and no
audit entry is appended. -/
theorem claim8_no_records_error (rules : Rules) (db : DB) (uploadJobId userId : ℕ) :
    ((db.records.filter fun r =>
        r.uploadJobId = uploadJobId ∧ r.isSystemRecord = false) = [] ↔
      reconcileUploadJob rules db uploadJobId userId =
        .error "No uploaded records found for reconciliation") ∧
    ((db.records.filter fun r =>
        r.uploadJobId = uploadJobId ∧ r.isSystemRecord = false) = [] →
      applyOp db (.reconcile rules uploadJobId userId) = db) := by
  have hdir : (db.records.filter fun r =>
      r.uploadJobId = uploadJobId ∧ r.isSystemRecord = false) = [] →
      reconcileUploadJob rules db uploadJobId userId =
        .error "No uploaded records found for reconciliation" := by
    intro h
    simp only [reconcileUploadJob, h, List.isEmpty_nil, if_true]
  refine ⟨⟨hdir, ?_⟩, fun h => ?_⟩
  · intro h
    cases hF : (db.records.filter fun r =>
        r.uploadJobId = uploadJobId ∧ r.isSystemRecord = false).isEmpty with
    | true => exact List.isEmpty_iff.mp hF
    | false =>
      rw [reconcileUploadJob] at h
      simp only [hF, Bool.false_eq_true, if_false] at h
      exact Except.noConfusion h
  · simp [applyOp, hdir h]

/-- Witness for C8: a job with only a system record in the store fails
with the no-records error. -/
theorem claim8_witness :
    (emptyJobDB.records.filter fun r =>
        r.uploadJobId = 7 ∧ r.isSystemRecord = false) = [] ∧
    reconcileUploadJob defaultRules emptyJobDB 7 42 =
      .error "No uploaded records found for reconciliation" :=
  ⟨by rfl, (claim8_no_records_error defaultRules emptyJobDB 7 42).1.mp (by rfl)⟩

/-- Claim C5: manual resolution fails with NotFound exactly when no
result carries the requested identifier; on success the updated result
has the manual-override flag set and exactly one audit entry is appended,
with action `resolve`, human-initiated source `web_ui`, and `oldValue`
equal to the pre-resolution status, override flag and notes. -/
theorem claim5_resolve_notfound_and_audit (db : DB) (rid : ℕ) (res : Resolution)
    (uid now : ℕ) :
    ((∀ r ∈ db.results, ¬ r.id = rid) ↔
      resolveManually db rid res uid now =
        .error "Reconciliation result not found") ∧
    (∀ db' r', resolveManually db rid res uid now = .ok (db', r') →
      r'.isManuallyResolved = true ∧
      ∃ r, db.results.find? (fun x => x.id = rid) = some r ∧
        db'.auditLog = db.auditLog ++
          [{ entityType := "reconciliation_result"
             entityId := r.id
             action := "resolve"
             userId := uid
             oldValue := some
               { matchStatus := some r.matchStatus
                 isManuallyResolved := some r.isManuallyResolved
                 notes := some r.notes }
             newValue :=
               { matchStatus := some res.matchStatus
                 isManuallyResolved := some true
                 notes := some res.notes
                 systemRecordId := some r'.systemRecordId }
             source := "web_ui" }]) := by
  constructor
  · constructor
    · intro h
      have hnone : db.results.find? (fun x => x.id = rid) = none := by
        rw [List.find?_eq_none]
        intro x hx
        simpa using h x hx
      simp [resolveManually, hnone]
    · intro h x hx
      cases hf : db.results.find? (fun x => x.id = rid) with
      | none => simpa using List.find?_eq_none.mp hf x hx
      | some r =>
        rw [resolveManually] at h
        simp only [hf] at h
        exact Except.noConfusion h
  · intro db' r' h
    cases hf : db.results.find? (fun x => x.id = rid) with
    | none =>
      rw [resolveManually] at h
      simp only [hf] at h
      exact Except.noConfusion h
    | some r =>
      rw [resolveManually] at h
      simp only [hf, Except.ok.injEq, Prod.mk.injEq] at h
      obtain ⟨hdb, hr⟩ := h
      subst hdb
      subst hr
      exact ⟨rfl, r, rfl, rfl⟩

/-- Witness for C5: resolving the sample result succeeds, flags the
result as manually resolved, and appends the expected audit entry. -/
theorem claim5_witness :
    resolveManually sampleDB 5 sampleResolution 99 1000 =
      .ok (sampleResolvedDB, sampleResolvedResult) ∧
    sampleResolvedResult.isManuallyResolved = true :=
  ⟨by rfl,
    ((claim5_resolve_notfound_and_audit sampleDB 5 sampleResolution 99 1000).2
      sampleResolvedDB sampleResolvedResult (by rfl)).1⟩

/-- Claim C6: manual resolution changes only status, override flag,
resolver, resolution timestamp, notes, and — only when supplied — the
chosen system record; identifier, uploaded-record id, match score,
differences, owning batch and the rule snapshot are unchanged, other
stored results are untouched, and an unsupplied system-record id keeps
its prior value. -/
theorem claim6_resolve_frame (db : DB) (rid : ℕ) (res : Resolution) (uid now : ℕ)
    (db' : DB) (r' : ReconciliationResult)
    (h : resolveManually db rid res uid now = .ok (db', r')) :
    ∃ r, db.results.find? (fun x => x.id = rid) = some r ∧
      r'.id = r.id ∧ r'.uploadedRecordId = r.uploadedRecordId ∧
      r'.matchScore = r.matchScore ∧ r'.differences = r.differences ∧
      r'.uploadJobId = r.uploadJobId ∧
      r'.reconciliationRules = r.reconciliationRules ∧
      r'.matchStatus = res.matchStatus ∧ r'.isManuallyResolved = true ∧
      r'.resolvedBy = some uid ∧ r'.resolvedAt = some now ∧
      r'.notes = res.notes ∧
      (res.systemRecordId = none → r'.systemRecordId = r.systemRecordId) ∧
      (∀ sid, res.systemRecordId = some sid → r'.systemRecordId = some sid) ∧
      db'.records = db.records ∧ db'.nextId = db.nextId ∧
      db'.results = db.results.map (fun x => if x.id = rid then r' else x) := by
  cases hf : db.results.find? (fun x => x.id = rid) with
  | none =>
    rw [resolveManually] at h
    simp only [hf] at h
    exact Except.noConfusion h
  | some r =>
    rw [resolveManually] at h
    simp only [hf, Except.ok.injEq, Prod.mk.injEq] at h
    obtain ⟨hdb, hr⟩ := h
    subst hdb
    subst hr
    refine ⟨r, rfl, rfl, rfl, rfl, rfl, rfl, rfl, rfl, rfl, rfl, rfl, rfl,
      ?_, ?_, rfl, rfl, rfl⟩
    · intro hsid
      simp [hsid]
    · intro sid hsid
      simp [hsid]

/-- Witness for C6: the sample resolution leaves the sample result's
score, differences, batch and rule snapshot unchanged. -/
theorem claim6_witness :
    ∃ r, sampleDB.results.find? (fun x => x.id = 5) = some r ∧
      sampleResolvedResult.id = r.id ∧
      sampleResolvedResult.uploadedRecordId = r.uploadedRecordId ∧
      sampleResolvedResult.matchScore = r.matchScore ∧
      sampleResolvedResult.differences = r.differences ∧
      sampleResolvedResult.uploadJobId = r.uploadJobId ∧
      sampleResolvedResult.reconciliationRules = r.reconciliationRules ∧
      sampleResolvedResult.matchStatus = sampleResolution.matchStatus ∧
      sampleResolvedResult.isManuallyResolved = true ∧
      sampleResolvedResult.resolvedBy = some 99 ∧
      sampleResolvedResult.resolvedAt = some 1000 ∧
      sampleResolvedResult.notes = sampleResolution.notes ∧
      (sampleResolution.systemRecordId = none →
        sampleResolvedResult.systemRecordId = r.systemRecordId) ∧
      (∀ sid, sampleResolution.systemRecordId = some sid →
        sampleResolvedResult.systemRecordId = some sid) ∧
      sampleResolvedDB.records = sampleDB.records ∧
      sampleResolvedDB.nextId = sampleDB.nextId ∧
      sampleResolvedDB.results = sampleDB.results.map
        (fun x => if x.id = 5 then sampleResolvedResult else x) :=
  claim6_resolve_frame sampleDB 5 sampleResolution 99 1000
    sampleResolvedDB sampleResolvedResult (by rfl)

/-- A produced difference entry carries the field it was produced for. -/
theorem diffEntry_field (u s : Record) (f : Field) (d : FieldDifference)
    (h : diffEntry u s f = some d) : d.field = f := by
  unfold diffEntry at h
  split_ifs at h <;> simp only [Option.some.injEq] at h <;> subst h <;> rfl

/-- Fields outside the traversed list produce no difference entry. -/
theorem filter_diff_not_mem (u s : Record) (l : List Field) (f : Field)
    (hf : f ∉ l) :
    (l.filterMap (diffEntry u s)).filter (fun d => d.field = f) = [] := by
  induction l with
  | nil => rfl
  | cons g l ih =>
    simp only [List.mem_cons, not_or] at hf
    obtain ⟨hgf, hfl⟩ := hf
    cases hg : diffEntry u s g with
    | none => simpa [List.filterMap_cons, hg] using ih hfl
    | some d =>
      have hd : d.field = g := diffEntry_field u s g d hg
      simp [List.filterMap_cons, hg, List.filter_cons, hd, Ne.symm hgf, ih hfl]

/-- Within a duplicate-free traversed list, the entries for a field `f`
are exactly what `diffEntry` produces for `f`. -/
theorem filter_diff_mem (u s : Record) (l : List Field) (f : Field)
    (hl : l.Nodup) (hf : f ∈ l) :
    (l.filterMap (diffEntry u s)).filter (fun d => d.field = f) =
      match diffEntry u s f with
      | none => []
      | some d => [d] := by
  induction l with
  | nil => cases hf
  | cons g l ih =>
    rw [List.nodup_cons] at hl
    obtain ⟨hgl, hl2⟩ := hl
    rcases List.mem_cons.mp hf with hfg | hfl
    · subst hfg
      cases hg : diffEntry u s f with
      | none =>
        simpa [List.filterMap_cons, hg] using filter_diff_not_mem u s l f hgl
      | some d =>
        have hd : d.field = f := diffEntry_field u s f d hg
        simp [List.filterMap_cons, hg, List.filter_cons, hd,
          filter_diff_not_mem u s l f hgl]
    · have hgf : g ≠ f := fun e => hgl (e ▸ hfl)
      cases hg : diffEntry u s g with
      | none => simpa [List.filterMap_cons, hg] using ih hl2 hfl
      | some d =>
        have hd : d.field = g := diffEntry_field u s g d hg
        simpa [List.filterMap_cons, hg, List.filter_cons, hd, hgf]
          using ih hl2 hfl

/-- On every field other than the date, the source's strict equality is
value equality of the compared field values. -/
theorem jsStrictEq_getField (u s : Record) (f : Field) (hf : f ≠ Field.date) :
    jsStrictEq (getField f u) (getField f s) = true ↔
      getField f u = getField f s := by
  cases f <;>
    first
    | exact absurd rfl hf
    | simp [getField, jsStrictEq]

/-- Counterexample for C9: the fixture records carry the same date value,
yet the Differ emits a date difference entry — the source compares two
distinct `Date` objects with `!==`, which is reference inequality and
true regardless of the carried value. -/
theorem claim9_counterexample :
    sampleUploaded.date = sampleSystem.date ∧
    ¬ (findDifferences sampleUploaded sampleSystem).filter
        (fun d => d.field = Field.date) = [] := by
  constructor
  · rfl
  · decide

/-- Claim C9 (amended): for each compared field other than the date the
Differ emits no entry when the values are equal and exactly one entry
`{field, uploadedValue, systemValue}` when they differ, the amount entry
additionally carrying `variance = |a-b| / max(a,b)` with the max
denominator; the date field always emits exactly one difference entry,
because the source compares two distinct `Date` objects with `!==`
(reference inequality) regardless of their values. -/
theorem claim9_differ_per_field (u s : Record) :
    (∀ f ∈ fieldsToCompare, f ≠ Field.date →
      (getField f u = getField f s →
        (findDifferences u s).filter (fun d => d.field = f) = []) ∧
      (getField f u ≠ getField f s →
        (findDifferences u s).filter (fun d => d.field = f) =
          [{ field := f
             uploadedValue := getField f u
             systemValue := getField f s
             variance :=
               if f = Field.amount then
                 some (|u.amount - s.amount| / max u.amount s.amount)
               else none }])) ∧
    (findDifferences u s).filter (fun d => d.field = Field.date) =
      [{ field := Field.date
         uploadedValue := getField Field.date u
         systemValue := getField Field.date s
         variance := none }] := by
  have hnd : fieldsToCompare.Nodup := by decide
  constructor
  · intro f hf hfd
    have key := filter_diff_mem u s fieldsToCompare f hnd hf
    constructor
    · intro h
      rw [findDifferences, key]
      have : jsStrictEq (getField f u) (getField f s) = true :=
        (jsStrictEq_getField u s f hfd).mpr h
      simp [diffEntry, this]
    · intro h
      rw [findDifferences, key]
      have : ¬ jsStrictEq (getField f u) (getField f s) = true := fun hc =>
        h ((jsStrictEq_getField u s f hfd).mp hc)
      simp only [diffEntry, this, Bool.not_eq_true] at *
      simp [this]
  · have key := filter_diff_mem u s fieldsToCompare Field.date hnd (by decide)
    rw [findDifferences, key]
    simp [diffEntry, jsStrictEq, getField]

/-- Witness for C9: amounts 100 and 0 differ, and the emitted amount
entry carries variance 100/100 computed with the max denominator. -/
theorem claim9_witness :
    Field.amount ∈ fieldsToCompare ∧
    Field.amount ≠ Field.date ∧
    getField Field.amount sampleUploaded ≠ getField Field.amount zeroSystem ∧
    (findDifferences sampleUploaded zeroSystem).filter
        (fun d => d.field = Field.amount) =
      [{ field := Field.amount
         uploadedValue := getField Field.amount sampleUploaded
         systemValue := getField Field.amount zeroSystem
         variance :=
           if Field.amount = Field.amount then
             some (|sampleUploaded.amount - zeroSystem.amount| /
               max sampleUploaded.amount zeroSystem.amount)
           else none }] :=
  ⟨by decide, by decide, by decide,
    ((claim9_differ_per_field sampleUploaded zeroSystem).1 Field.amount
      (by decide) (by decide)).2 (by decide)⟩

/-- One orchestrator loop iteration appends exactly one audit entry. -/
theorem reconcileStep_auditLog (rules : Rules) (dups : List (String × ℕ))
    (j uid : ℕ) (acc : DB × List ReconciliationResult) (u : Record) :
    ∃ e, (reconcileStep rules dups j uid acc u).1.auditLog =
      acc.1.auditLog ++ [e] :=
  ⟨_, rfl⟩

/-- The orchestrator loop only ever appends to the audit log. -/
theorem foldl_reconcileStep_auditLog (rules : Rules) (dups : List (String × ℕ))
    (j uid : ℕ) (us : List Record) :
    ∀ acc : DB × List ReconciliationResult,
      ∃ a, ((us.foldl (reconcileStep rules dups j uid) acc).1).auditLog =
        acc.1.auditLog ++ a := by
  induction us with
  | nil => exact fun acc => ⟨[], by simp⟩
  | cons u us ih =>
    intro acc
    obtain ⟨a, ha⟩ := ih (reconcileStep rules dups j uid acc u)
    obtain ⟨e, he⟩ := reconcileStep_auditLog rules dups j uid acc u
    refine ⟨e :: a, ?_⟩
    rw [List.foldl_cons, ha, he]
    simp

/-- Batch reconciliation only ever appends to the audit log. -/
theorem reconcileUploadJob_auditLog (rules : Rules) (db : DB) (j uid : ℕ)
    (db2 : DB) (sm : ReconcileSummary)
    (h : reconcileUploadJob rules db j uid = .ok (db2, sm)) :
    ∃ a, db2.auditLog = db.auditLog ++ a := by
  rw [reconcileUploadJob] at h
  cases hF : (db.records.filter fun r =>
      r.uploadJobId = j ∧ r.isSystemRecord = false).isEmpty with
  | true =>
    simp only [hF, if_true] at h
    exact Except.noConfusion h
  | false =>
    simp only [hF, Bool.false_eq_true, if_false, Except.ok.injEq,
      Prod.mk.injEq] at h
    obtain ⟨hdb, hsm⟩ := h
    subst hdb
    exact foldl_reconcileStep_auditLog rules
      (findDuplicates db.records j) j uid
      (db.records.filter fun r => r.uploadJobId = j ∧ r.isSystemRecord = false)
      (db, [])

/-- Manual resolution only ever appends to the audit log. -/
theorem resolveManually_auditLog (db : DB) (rid : ℕ) (res : Resolution)
    (uid now : ℕ) (db2 : DB) (r2 : ReconciliationResult)
    (h : resolveManually db rid res uid now = .ok (db2, r2)) :
    ∃ a, db2.auditLog = db.auditLog ++ a := by
  cases hf : db.results.find? (fun x => x.id = rid) with
  | none =>
    rw [resolveManually] at h
    simp only [hf] at h
    exact Except.noConfusion h
  | some r =>
    rw [resolveManually] at h
    simp only [hf, Except.ok.injEq, Prod.mk.injEq] at h
    obtain ⟨hdb, hr⟩ := h
    subst hdb
    exact ⟨_, rfl⟩

/-- Every single operation only ever appends to the audit log. -/
theorem applyOp_auditLog (db : DB) (op : Op) :
    ∃ a, (applyOp db op).auditLog = db.auditLog ++ a := by
  cases op with
  | reconcile rules j uid =>
    rw [applyOp]
    cases h : reconcileUploadJob rules db j uid with
    | ok p => exact reconcileUploadJob_auditLog rules db j uid p.1 p.2 h
    | error e => exact ⟨[], by simp⟩
  | resolve rid res uid now =>
    rw [applyOp]
    cases h : resolveManually db rid res uid now with
    | ok p => exact resolveManually_auditLog db rid res uid now p.1 p.2 h
    | error e => exact ⟨[], by simp⟩

/-- Claim C7: the audit log is append-only — across any sequence of the
program's operations every existing entry survives unchanged in place;
no operation updates or deletes an entry, ever. -/
theorem claim7_audit_append_only (db : DB) (ops : List Op) :
    ∃ appended, (runOps db ops).auditLog = db.auditLog ++ appended := by
  induction ops generalizing db with
  | nil => exact ⟨[], by simp [runOps]⟩
  | cons op ops ih =>
    obtain ⟨a1, h1⟩ := applyOp_auditLog db op
    obtain ⟨a2, h2⟩ := ih (applyOp db op)
    refine ⟨a1 ++ a2, ?_⟩
    have : runOps db (op :: ops) = runOps (applyOp db op) ops := rfl
    rw [this, h2, h1, List.append_assoc]

end Recon
